import Mathlib

/-!
Verification development for the Montpellier Transports itinerary core
(a RAPTOR-based public-transit journey planner written in TypeScript).

The TypeScript sources are shallowly embedded below:
JavaScript numbers holding times, dates and durations become `Int`;
JavaScript objects used as string-keyed records become functions into
`Option` (with `none` for an absent key / `undefined`);
objects used as numeric-keyed records whose key enumeration order matters
become association lists sorted by key (JavaScript enumerates integer-like
keys in ascending order);
code that can throw a TypeError is wrapped in `Option`, with `none` for the
exception.
-/

namespace MT

/-- StopID, e.g. "S5102" (gtfs/GTFS.ts). -/
abbrev StopID := String

/-- Time in seconds since midnight; may exceed 24 hours (gtfs/GTFS.ts). -/
abbrev Time := Int

/-- JavaScript `Number.MAX_SAFE_INTEGER`, the forward-scan sentinel. -/
def maxSafeInteger : Int := 9007199254740991

/-- JavaScript `Number.MIN_SAFE_INTEGER`, the reverse-scan sentinel. -/
def minSafeInteger : Int := -9007199254740991

/-- GTFS stop time (gtfs/GTFS.ts `StopTime`). -/
structure StopTime where
  stopId : StopID
  arrivalTime : Time
  departureTime : Time
  tripId : String
  stopSequence : Nat
  pickUp : Bool
  dropOff : Bool
  headsign : String
deriving DecidableEq, Repr

/-- Default used when indexing a stop-time array out of bounds; the
JavaScript source would yield `undefined` there. -/
def defaultStopTime : StopTime := ⟨"", 0, 0, "", 0, false, false, ""⟩

/-- Foot transfer between two stops (gtfs/GTFS.ts `Transfer`). -/
structure Transfer where
  origin : StopID
  destination : StopID
  duration : Int
  startTime : Time
  endTime : Time
  transferType : String
deriving DecidableEq, Repr

/-- Calendar of one service (gtfs/Service.ts). `days` is the weekday mask
(Sunday = 0 .. Saturday = 6, indexed by an `Int` as JavaScript does) and
`dates` the include-date index: `some true` is an include exception,
`some false` an exclude exception, `none` no exception for that date. -/
structure Service where
  startDate : Int
  endDate : Int
  days : Int → Bool
  dates : Int → Option Bool

/-- gtfs/Service.ts `runsOn`: transliteration of
`this.dates[date] || (!this.dates.hasOwnProperty(date) && this.startDate <= date && this.endDate >= date && this.days[dow])`.
A present-but-false include entry is falsy, and `hasOwnProperty` then stops
the weekday rule from applying. -/
def Service.runsOn (s : Service) (date : Int) (dow : Int) : Bool :=
  ((s.dates date).getD false) ||
    ((s.dates date).isNone && decide (s.startDate ≤ date) &&
      decide (s.endDate ≥ date) && s.days dow)

/-- GTFS trip (gtfs/GTFS.ts `Trip`). Route and direction identifiers are
kept as the strings the loader stores. -/
structure Trip where
  id : String
  routeId : String
  directionId : String
  stopTimes : List StopTime
  serviceId : String
  service : Service

/-- A recorded connection: either a boarded trip segment
`[trip, startIndex, endIndex]` or a `Transfer`
(raptor/ScanResults.ts `Connection | Transfer`). -/
inductive ConnEntry where
  | trip (trip : Trip) (startIndex endIndex : Nat)
  | transfer (t : Transfer)

/-- Ascending-key insertion into a numeric-keyed JavaScript object,
modelling `obj[key] = v` together with JavaScript's ascending enumeration
order for integer-like keys. -/
def recordSet {α : Type} : List (Nat × α) → Nat → α → List (Nat × α)
  | [], key, v => [(key, v)]
  | (k0, v0) :: rest, key, v =>
    if key = k0 then (key, v) :: rest
    else if key < k0 then (key, v) :: (k0, v0) :: rest
    else (k0, v0) :: recordSet rest key v

/-- Key lookup in a numeric-keyed JavaScript object. -/
def recordGet {α : Type} (l : List (Nat × α)) (key : Nat) : Option α :=
  (l.find? (fun p => p.1 == key)).map Prod.snd

/-- JavaScript `stopTimes[i]`; out-of-bounds access would be
`undefined` and crash the callers embedded here, so the in-bounds
hypotheses of the theorems below correspond to the runs that return. -/
def jsIndex (l : List StopTime) (i : Nat) : StopTime :=
  (l[i]?).getD defaultStopTime

/-- Per-query scan buffers (raptor/ScanResults.ts `ScanResults`).
`bestArrivals` and the per-round `kArrivals` rows are string-keyed records
(functions into `Option`), `kConnections` maps each stop to its
numeric-keyed round record. -/
structure ScanResults where
  k : Nat
  bestArrivals : StopID → Option Time
  kArrivals : Nat → StopID → Option Time
  kConnections : StopID → List (Nat × ConnEntry)
  reverse : Bool

/-- raptor/ScanResults.ts `addRound`: `this.kArrivals[++this.k] = {}`. -/
def ScanResults.addRound (r : ScanResults) : ScanResults :=
  { r with
    k := r.k + 1
    kArrivals := fun j s => if j = r.k + 1 then none else r.kArrivals j s }

/-- raptor/ScanResults.ts `setTrip`: stores
`trip.stopTimes[endIndex].arrivalTime + interchange` (forward) or
`trip.stopTimes[startIndex].departureTime - interchange` (reverse) into the
current round, into the best arrivals, and records the connection. -/
def ScanResults.setTrip (r : ScanResults) (trip : Trip)
    (startIndex endIndex : Nat) (interchange : Int) : ScanResults :=
  let time : Time :=
    if r.reverse then (jsIndex trip.stopTimes startIndex).departureTime - interchange
    else (jsIndex trip.stopTimes endIndex).arrivalTime + interchange
  let stopPi : StopID :=
    if r.reverse then (jsIndex trip.stopTimes startIndex).stopId
    else (jsIndex trip.stopTimes endIndex).stopId
  { r with
    kArrivals := fun j s => if j = r.k ∧ s = stopPi then some time else r.kArrivals j s
    bestArrivals := fun s => if s = stopPi then some time else r.bestArrivals s
    kConnections := fun s =>
      if s = stopPi then recordSet (r.kConnections s) r.k (.trip trip startIndex endIndex)
      else r.kConnections s }

/-- raptor/ScanResults.ts `setTransfer`: stores the given time at the
transfer destination and records the transfer connection. -/
def ScanResults.setTransfer (r : ScanResults) (transfer : Transfer) (time : Time) : ScanResults :=
  let stopPi : StopID := transfer.destination
  { r with
    kArrivals := fun j s => if j = r.k ∧ s = stopPi then some time else r.kArrivals j s
    bestArrivals := fun s => if s = stopPi then some time else r.bestArrivals s
    kConnections := fun s =>
      if s = stopPi then recordSet (r.kConnections s) r.k (.transfer transfer)
      else r.kConnections s }

/-- JavaScript `x || d` for a number-or-undefined `x`: `0` (and `undefined`)
are falsy, so they yield the default. -/
def jsOrNum (v : Option Int) (d : Int) : Int :=
  match v with
  | some x => if x = 0 then d else x
  | none => d

/-- raptor/ScanResultsFactory.ts `create`: seeds `bestArrivals` and round-0
`kArrivals` with `origins[stop] || sentinel` for every stop of the prepared
stop list, and an empty connection record per stop. The source constructs
the `ScanResults` without forwarding its `reverse` argument, so the
returned buffer always has `reverse = false`; the argument only selects the
sentinel. Stops outside the prepared list are left absent. -/
def ScanResultsFactory.create (stops : List StopID) (origins : StopID → Option Time)
    (reverse : Bool) : ScanResults :=
  { k := 0
    bestArrivals := fun s =>
      if s ∈ stops then
        some (jsOrNum (origins s) (if reverse then minSafeInteger else maxSafeInteger))
      else none
    kArrivals := fun j s =>
      if j = 0 ∧ s ∈ stops then
        some (jsOrNum (origins s) (if reverse then minSafeInteger else maxSafeInteger))
      else none
    kConnections := fun _ => []
    reverse := false }

/-- Lookup after insertion at the same key returns the inserted value. -/
theorem recordGet_recordSet {α : Type} (l : List (Nat × α)) (key : Nat) (v : α) :
    recordGet (recordSet l key v) key = some v := by
  induction l with
  | nil => simp [recordSet, recordGet]
  | cons hd tl ih =>
    obtain ⟨k0, v0⟩ := hd
    simp only [recordSet]
    by_cases h1 : key = k0
    · simp [recordGet, h1]
    · by_cases h2 : key < k0
      · simp [recordGet, h1, h2]
      · simp only [h1, h2, if_false]
        simpa [recordGet, List.find?_cons, Ne.symm h1, h1] using ih

/-- C2 (amended): a forward `setTrip` with alight index `i` stores
`arrivalAt + interchange` (not the bare stop-time arrival) into both the
current round of `kArrivals` and into `bestArrivals` at the alighting stop,
and records the connection `(trip, boardIndex, i)` for the current round. -/
theorem setTrip_stores (r : ScanResults) (trip : Trip) (boardIndex i : Nat)
    (interchange : Int) (st : StopTime)
    (hrev : r.reverse = false) (hst : trip.stopTimes[i]? = some st) :
    (r.setTrip trip boardIndex i interchange).kArrivals r.k st.stopId
        = some (st.arrivalTime + interchange) ∧
    (r.setTrip trip boardIndex i interchange).bestArrivals st.stopId
        = some (st.arrivalTime + interchange) ∧
    recordGet ((r.setTrip trip boardIndex i interchange).kConnections st.stopId) r.k
        = some (.trip trip boardIndex i) := by
  have hj : jsIndex trip.stopTimes i = st := by simp [jsIndex, hst]
  refine ⟨?_, ?_, ?_⟩ <;>
    simp [ScanResults.setTrip, hrev, hj, recordGet_recordSet]

/-- Stop times of the concrete two-stop trip used in the C2 witness. -/
def stW1 : StopTime := ⟨"A", 1000, 1005, "T1", 1, true, true, ""⟩

/-- Second stop time of the concrete trip. -/
def stW2 : StopTime := ⟨"B", 2000, 2005, "T1", 2, true, true, ""⟩

/-- A service that runs every day of a wide date range. -/
def svcAll : Service := ⟨0, 99999999, fun _ => true, fun _ => none⟩

/-- A concrete trip serving stops A then B. -/
def tripW : Trip := ⟨"T1", "2", "0", [stW1, stW2], "SV", svcAll⟩

/-- A fresh forward scan buffer over stops A and B with no origins. -/
def rW : ScanResults := ScanResultsFactory.create ["A", "B"] (fun _ => none) false

/-- Witness for the amended C2 at a concrete buffer, trip and a 120 s
interchange. -/
theorem setTrip_stores_witness :
    rW.reverse = false ∧ tripW.stopTimes[1]? = some stW2 ∧
    (rW.setTrip tripW 0 1 120).kArrivals rW.k stW2.stopId
        = some (stW2.arrivalTime + 120) ∧
    (rW.setTrip tripW 0 1 120).bestArrivals stW2.stopId
        = some (stW2.arrivalTime + 120) ∧
    recordGet ((rW.setTrip tripW 0 1 120).kConnections stW2.stopId) rW.k
        = some (.trip tripW 0 1) := by
  refine ⟨rfl, rfl, ?_⟩
  exact setTrip_stores rW tripW 0 1 120 stW2 rfl rfl

/-- Counterexample for C2 as stated: with a 120 s interchange the value
stored by the forward `setTrip` at the alighting stop is the stop-time
arrival plus the interchange, which differs from the bare stop-time
arrival that the claim asserts is stored. -/
theorem setTrip_counterexample :
    (rW.setTrip tripW 0 1 120).kArrivals (rW.setTrip tripW 0 1 120).k "B"
        = some (stW2.arrivalTime + 120) ∧
    (rW.setTrip tripW 0 1 120).bestArrivals "B" = some (stW2.arrivalTime + 120) ∧
    stW2.arrivalTime + 120 ≠ stW2.arrivalTime := by
  refine ⟨by decide, by decide, by decide⟩

/-- C3 counterexample: `create` does not initialise `bestArrival` to the
sentinel for a stop present in `origins` (it copies the origin time), and a
present origin time of 0 is replaced by the sentinel in round 0 instead of
being kept. -/
theorem create_counterexample :
    (ScanResultsFactory.create ["A"] (fun s => if s = "A" then some 100 else none)
        false).bestArrivals "A" = some 100 ∧
    (100 : Int) ≠ maxSafeInteger ∧
    (ScanResultsFactory.create ["A"] (fun s => if s = "A" then some 0 else none)
        false).kArrivals 0 "A" = some maxSafeInteger ∧
    maxSafeInteger ≠ (0 : Int) := by
  refine ⟨by decide, by decide, by decide, by decide⟩

/-- C3 (amended): for every stop of the prepared stop list, forward
`create` initialises both `bestArrival[s]` and `kArrivals[0][s]` to
`origins[s] || MAX_SAFE_INTEGER` (the origin time when present and
non-zero, the sentinel otherwise), leaves every later round empty, and
records no connection for any stop. -/
theorem create_init (stops : List StopID) (origins : StopID → Option Time) (s : StopID)
    (hs : s ∈ stops) :
    (ScanResultsFactory.create stops origins false).bestArrivals s
        = some (jsOrNum (origins s) maxSafeInteger) ∧
    (ScanResultsFactory.create stops origins false).kArrivals 0 s
        = some (jsOrNum (origins s) maxSafeInteger) ∧
    (∀ j s2, j ≠ 0 → (ScanResultsFactory.create stops origins false).kArrivals j s2 = none) ∧
    (∀ s2, (ScanResultsFactory.create stops origins false).kConnections s2 = []) := by
  refine ⟨?_, ?_, ?_, fun _ => rfl⟩
  · simp [ScanResultsFactory.create, hs]
  · simp [ScanResultsFactory.create, hs]
  · intro j s2 hj
    simp [ScanResultsFactory.create, hj]

/-- Witness for the amended C3 at a concrete stop list and origin map. -/
theorem create_init_witness :
    "A" ∈ ["A"] ∧
    (ScanResultsFactory.create ["A"] (fun s => if s = "A" then some 100 else none)
        false).bestArrivals "A"
      = some (jsOrNum ((fun s => if s = "A" then some 100 else none) "A") maxSafeInteger) ∧
    (ScanResultsFactory.create ["A"] (fun s => if s = "A" then some 100 else none)
        false).kArrivals 0 "A"
      = some (jsOrNum ((fun s => if s = "A" then some 100 else none) "A") maxSafeInteger) := by
  refine ⟨by decide, ?_, ?_⟩
  · exact (create_init ["A"] (fun s => if s = "A" then some 100 else none) "A" (by decide)).1
  · exact (create_init ["A"] (fun s => if s = "A" then some 100 else none) "A" (by decide)).2.1

/-- C10: an origin entry of exactly 0 (midnight) is falsy for the
JavaScript `||` default, so `create` treats the stop as if it were absent
from `origins`: the whole buffer equals the one created without the entry,
and the stop receives the unreachable sentinel (MAX_SAFE_INTEGER forward,
MIN_SAFE_INTEGER reverse) in both round 0 and the best arrivals. -/
theorem create_zero_origin (stops : List StopID) (origins : StopID → Option Time)
    (s : StopID) (h0 : origins s = some 0) :
    (∀ rev : Bool, ScanResultsFactory.create stops origins rev
        = ScanResultsFactory.create stops (fun t => if t = s then none else origins t) rev) ∧
    (s ∈ stops →
      (ScanResultsFactory.create stops origins false).kArrivals 0 s = some maxSafeInteger ∧
      (ScanResultsFactory.create stops origins false).bestArrivals s = some maxSafeInteger) ∧
    (s ∈ stops →
      (ScanResultsFactory.create stops origins true).kArrivals 0 s = some minSafeInteger ∧
      (ScanResultsFactory.create stops origins true).bestArrivals s = some minSafeInteger) := by
  refine ⟨?_, ?_, ?_⟩
  · intro rev
    simp only [ScanResultsFactory.create, ScanResults.mk.injEq, true_and, and_true]
    constructor
    · funext s2
      by_cases hs2 : s2 = s
      · subst hs2; simp [h0, jsOrNum]
      · simp [hs2]
    · funext j s2
      by_cases hs2 : s2 = s
      · subst hs2; simp [h0, jsOrNum]
      · simp [hs2]
  · intro hs
    constructor <;> simp [ScanResultsFactory.create, hs, h0, jsOrNum]
  · intro hs
    constructor <;> simp [ScanResultsFactory.create, hs, h0, jsOrNum]

/-- Witness for C10 at a concrete origin map carrying a midnight (0) time. -/
theorem create_zero_origin_witness :
    (fun s => if s = "A" then some 0 else none : StopID → Option Time) "A" = some 0 ∧
    (ScanResultsFactory.create ["A"] (fun s => if s = "A" then some 0 else none)
        false).kArrivals 0 "A" = some maxSafeInteger ∧
    (ScanResultsFactory.create ["A"] (fun s => if s = "A" then some 0 else none)
        true).kArrivals 0 "A" = some minSafeInteger := by
  refine ⟨by decide, ?_, ?_⟩
  · exact ((create_zero_origin ["A"] (fun s => if s = "A" then some 0 else none) "A"
      (by decide)).2.1 (by decide)).1
  · exact ((create_zero_origin ["A"] (fun s => if s = "A" then some 0 else none) "A"
      (by decide)).2.2 (by decide)).1

/-- The public mutating operations of `ScanResults`
(raptor/ScanResults.ts): one constructor per method that writes the
buffers. -/
inductive ScanOp where
  | addRound
  | setTrip (trip : Trip) (startIndex endIndex : Nat) (interchange : Int)
  | setTransfer (t : Transfer) (time : Time)

/-- Run one buffer operation. -/
def applyOp (r : ScanResults) : ScanOp → ScanResults
  | .addRound => r.addRound
  | .setTrip trip s e ic => r.setTrip trip s e ic
  | .setTransfer t time => r.setTransfer t time

/-- Run a sequence of buffer operations left to right. -/
def applyOps (r : ScanResults) (ops : List ScanOp) : ScanResults :=
  ops.foldl applyOp r

/-- The (stop, time) pair an operation writes into the buffers, if any;
mirrors the `stopPi` and `time` computed inside `setTrip` and
`setTransfer`. -/
def opWrite (r : ScanResults) : ScanOp → Option (StopID × Time)
  | .addRound => none
  | .setTrip trip startIndex endIndex interchange =>
    if r.reverse then
      some ((jsIndex trip.stopTimes startIndex).stopId,
            (jsIndex trip.stopTimes startIndex).departureTime - interchange)
    else
      some ((jsIndex trip.stopTimes endIndex).stopId,
            (jsIndex trip.stopTimes endIndex).arrivalTime + interchange)
  | .setTransfer t time => some (t.destination, time)

/-- The scanner only calls `setTrip` / `setTransfer` when the candidate
improves on the recorded best time at the written stop; this is the
precondition of claim C9 for a single call. -/
def Improving (r : ScanResults) (op : ScanOp) : Prop :=
  ∀ p t, opWrite r op = some (p, t) → ∃ b, r.bestArrivals p = some b ∧ t ≤ b

/-- The C9 precondition holding along a whole operation sequence. -/
def PreOK (r : ScanResults) : List ScanOp → Prop
  | [] => True
  | op :: rest => Improving r op ∧ PreOK (applyOp r op) rest

/-- The forward scan-buffer invariant: every recorded per-round arrival
dominates (is at least) the recorded best arrival at that stop. -/
def InvariantFwd (r : ScanResults) : Prop :=
  ∀ s j v, r.kArrivals j s = some v → ∃ b, r.bestArrivals s = some b ∧ b ≤ v

/-- Core preservation step: writing the pair `(p0, t0)` into the current
round and the best arrivals keeps the invariant, provided the write
improves on the recorded best at `p0`. -/
theorem invariant_write {r : ScanResults} {p0 : StopID} {t0 : Time}
    (himp : ∃ b, r.bestArrivals p0 = some b ∧ t0 ≤ b)
    (hinv : InvariantFwd r) :
    ∀ s j v, (if j = r.k ∧ s = p0 then some t0 else r.kArrivals j s) = some v →
      ∃ b, (if s = p0 then some t0 else r.bestArrivals s) = some b ∧ b ≤ v := by
  intro s j v hv
  by_cases hs : s = p0
  · subst hs
    obtain ⟨b0, hb0, ht0⟩ := himp
    by_cases hj : j = r.k
    · simp only [hj, and_self, if_true, Option.some.injEq, true_and] at hv
      exact ⟨t0, by simp, le_of_eq hv⟩
    · simp only [hj, false_and, if_false] at hv
      obtain ⟨b, hb, hbv⟩ := hinv s j v hv
      rw [hb0] at hb
      injection hb with hb
      exact ⟨t0, by simp, le_trans ht0 (hb ▸ hbv)⟩
  · simp only [hs, and_false, if_false] at hv
    obtain ⟨b, hb, hbv⟩ := hinv s j v hv
    exact ⟨b, by simp [hs, hb], hbv⟩

/-- Each single improving operation preserves the forward invariant. -/
theorem invariant_step (r : ScanResults) (op : ScanOp)
    (himp : Improving r op) (hinv : InvariantFwd r) : InvariantFwd (applyOp r op) := by
  cases op with
  | addRound =>
    intro s j v hv
    simp only [applyOp, ScanResults.addRound] at hv
    split at hv
    · exact absurd hv (by simp)
    · exact hinv s j v hv
  | setTrip trip bps eps ic =>
    cases hr : r.reverse with
    | false =>
      have hi := himp (jsIndex trip.stopTimes eps).stopId
        ((jsIndex trip.stopTimes eps).arrivalTime + ic) (by simp [opWrite, hr])
      intro s j v hv
      have hv2 : (if j = r.k ∧ s = (jsIndex trip.stopTimes eps).stopId then
          some ((jsIndex trip.stopTimes eps).arrivalTime + ic) else r.kArrivals j s) = some v := by
        simpa [applyOp, ScanResults.setTrip, hr] using hv
      have hres := invariant_write hi hinv s j v hv2
      simpa [applyOp, ScanResults.setTrip, hr] using hres
    | true =>
      have hi := himp (jsIndex trip.stopTimes bps).stopId
        ((jsIndex trip.stopTimes bps).departureTime - ic) (by simp [opWrite, hr])
      intro s j v hv
      have hv2 : (if j = r.k ∧ s = (jsIndex trip.stopTimes bps).stopId then
          some ((jsIndex trip.stopTimes bps).departureTime - ic) else r.kArrivals j s) = some v := by
        simpa [applyOp, ScanResults.setTrip, hr] using hv
      have hres := invariant_write hi hinv s j v hv2
      simpa [applyOp, ScanResults.setTrip, hr] using hres
  | setTransfer t time =>
    have hi := himp t.destination time (by simp [opWrite])
    intro s j v hv
    have hv2 : (if j = r.k ∧ s = t.destination then some time else r.kArrivals j s) = some v := by
      simpa [applyOp, ScanResults.setTransfer] using hv
    have hres := invariant_write hi hinv s j v hv2
    simpa [applyOp, ScanResults.setTransfer] using hres

/-- No buffer operation changes the direction flag. -/
theorem applyOp_reverse (r : ScanResults) (op : ScanOp) :
    (applyOp r op).reverse = r.reverse := by
  cases op <;> rfl

/-- C9: under the precondition that every `setTrip` / `setTransfer` call on
a forward-direction buffer improves the recorded best time at the written
stop, any sequence of `addRound` / `setTrip` / `setTransfer` operations
preserves the invariant that every recorded `kArrivals[k][s]` is at least
`bestArrival[s]`. -/
theorem scan_invariant_preserved (r : ScanResults) (ops : List ScanOp)
    (hrev : r.reverse = false) (hinv : InvariantFwd r) (hpre : PreOK r ops) :
    InvariantFwd (applyOps r ops) := by
  induction ops generalizing r with
  | nil => exact hinv
  | cons op rest ih =>
    obtain ⟨h1, h2⟩ := hpre
    exact ih (applyOp r op) (by rw [applyOp_reverse, hrev])
      (invariant_step r op h1 hinv) h2

/-- Transfer used in the C9 witness run. -/
def trf9 : Transfer := ⟨"B", "A", 60, 0, 0, ""⟩

/-- Initial buffer of the C9 witness run. -/
def r9 : ScanResults := ScanResultsFactory.create ["A"] (fun _ => none) false

/-- Operation sequence of the C9 witness run: open round 1, then record a
transfer arrival of 50 at stop A (which improves on the sentinel). -/
def ops9 : List ScanOp := [.addRound, .setTransfer trf9 50]

/-- Witness for C9 at a concrete buffer and operation sequence. -/
theorem scan_invariant_witness :
    r9.reverse = false ∧ InvariantFwd r9 ∧ PreOK r9 ops9 ∧
    InvariantFwd (applyOps r9 ops9) := by
  have hinv : InvariantFwd r9 := by
    intro s j v hv
    simp only [r9, ScanResultsFactory.create] at hv ⊢
    split at hv
    · rename_i h
      obtain ⟨h1, h2⟩ := h
      simp only [List.mem_singleton] at h2
      subst h2
      injection hv with hv
      exact ⟨_, by simp, le_of_eq hv⟩
    · exact absurd hv (by simp)
  have hpre : PreOK r9 ops9 := by
    refine ⟨?_, ?_, trivial⟩
    · intro p t h
      simp [opWrite] at h
    · intro p t h
      simp only [opWrite] at h
      injection h with h
      injection h with h1 h2
      subst h1
      subst h2
      refine ⟨maxSafeInteger, ?_, by decide⟩
      rfl
  exact ⟨rfl, hinv, hpre, scan_invariant_preserved r9 ops9 rfl hinv hpre⟩

/-- A leg of a journey (results/Journey.ts `AnyLeg`): either a timetable
leg or a foot transfer. The `origin` and `destination` of a timetable leg
are `Option`-valued because the journey factory computes the origin by
reading a `stop` property that `StopTime` does not declare, which yields
`undefined` in JavaScript (see `jsStopField`). -/
inductive AnyLeg where
  | timetable (stopTimes : List StopTime) (origin : Option StopID)
      (destination : Option StopID) (trip : Trip)
  | transfer (t : Transfer)

/-- A journey (results/Journey.ts). -/
structure Journey where
  legs : List AnyLeg
  departureTime : Time
  arrivalTime : Time

/-- The `stop` property read by results/JourneyFactory.ts
(`stopTimes[0].stop` and `stopTimes[stopTimes.length - 1].stop`): the
repository's `StopTime` interface (gtfs/GTFS.ts) declares `stopId` but no
`stop` field, so in this codebase the access evaluates to `undefined` for
every stop time; it is a leftover from the upstream project whose
`StopTime` had a `stop` field. -/
def jsStopField (st : StopTime) : Option StopID := none

/-- results/JourneyFactory.ts `isTimetableLeg`: discriminates by the
presence of `stopTimes`. -/
def isTimetableLeg : AnyLeg → Bool
  | .timetable _ _ _ _ => true
  | .transfer _ => false

/-- Accumulating loop of results/JourneyFactory.ts `getDepartureTime`:
walk the legs forward, summing transfer durations, and return the first
timetable leg's first stop departure minus the accumulated duration. -/
def getDepartureTimeGo : Int → List AnyLeg → Time
  | _, [] => 0
  | transferDuration, .transfer t :: rest => getDepartureTimeGo (transferDuration + t.duration) rest
  | transferDuration, .timetable stopTimes _ _ _ :: _ =>
    (stopTimes.headD defaultStopTime).departureTime - transferDuration

/-- results/JourneyFactory.ts `getDepartureTime`. -/
def getDepartureTime (legs : List AnyLeg) : Time :=
  getDepartureTimeGo 0 legs

/-- Accumulating loop of results/JourneyFactory.ts `getArrivalTime`: the
source walks the leg array from its last index downwards, which is the
forward walk of the reversed list. -/
def getArrivalTimeGo : Int → List AnyLeg → Time
  | _, [] => 0
  | transferDuration, .transfer t :: rest => getArrivalTimeGo (transferDuration + t.duration) rest
  | transferDuration, .timetable stopTimes _ _ _ :: _ =>
    (stopTimes.getLastD defaultStopTime).arrivalTime + transferDuration

/-- results/JourneyFactory.ts `getArrivalTime`. -/
def getArrivalTime (legs : List AnyLeg) : Time :=
  getArrivalTimeGo 0 legs.reverse

/-- Departure loop over a prefix of transfers: each transfer only grows the
accumulator. -/
theorem getDepartureTimeGo_transfers (ts : List Transfer) (acc : Int) (rest : List AnyLeg) :
    getDepartureTimeGo acc (ts.map AnyLeg.transfer ++ rest)
      = getDepartureTimeGo (acc + (ts.map (fun t => t.duration)).sum) rest := by
  induction ts generalizing acc with
  | nil => simp [getDepartureTimeGo]
  | cons t ts ih =>
    simp only [List.map_cons, List.cons_append, getDepartureTimeGo, List.sum_cons,
      List.append_eq]
    rw [ih]
    ring_nf

/-- Arrival loop over a prefix of transfers (the reversed suffix): each
transfer only grows the accumulator. -/
theorem getArrivalTimeGo_transfers (ts : List Transfer) (acc : Int) (rest : List AnyLeg) :
    getArrivalTimeGo acc (ts.map AnyLeg.transfer ++ rest)
      = getArrivalTimeGo (acc + (ts.map (fun t => t.duration)).sum) rest := by
  induction ts generalizing acc with
  | nil => simp [getArrivalTimeGo]
  | cons t ts ih =>
    simp only [List.map_cons, List.cons_append, getArrivalTimeGo, List.sum_cons,
      List.append_eq]
    rw [ih]
    ring_nf

/-- C4: (i) a leg list with no timetable leg (all transfers) yields
departure and arrival time 0; (ii) the journey departure time is the first
timetable leg's first stop departure minus the cumulative duration of the
transfer legs preceding it; (iii) the journey arrival time is the last
timetable leg's last stop arrival plus the cumulative duration of the
transfer legs following it. -/
theorem journey_times :
    (∀ ts : List Transfer,
      getDepartureTime (ts.map AnyLeg.transfer) = 0 ∧
      getArrivalTime (ts.map AnyLeg.transfer) = 0) ∧
    (∀ (ts : List Transfer) (st : List StopTime) (o d : Option StopID) (tr : Trip)
        (rest : List AnyLeg),
      getDepartureTime (ts.map AnyLeg.transfer ++ AnyLeg.timetable st o d tr :: rest)
        = (st.headD defaultStopTime).departureTime - (ts.map (fun t => t.duration)).sum) ∧
    (∀ (front : List AnyLeg) (st : List StopTime) (o d : Option StopID) (tr : Trip)
        (ts : List Transfer),
      getArrivalTime (front ++ AnyLeg.timetable st o d tr :: ts.map AnyLeg.transfer)
        = (st.getLastD defaultStopTime).arrivalTime + (ts.map (fun t => t.duration)).sum) := by
  refine ⟨?_, ?_, ?_⟩
  · intro ts
    constructor
    · have := getDepartureTimeGo_transfers ts 0 []
      simpa [getDepartureTime, getDepartureTimeGo] using this
    · have := getArrivalTimeGo_transfers ts.reverse 0 []
      simp only [getArrivalTime, ← List.map_reverse]
      simpa [getArrivalTimeGo] using this
  · intro ts st o d tr rest
    have := getDepartureTimeGo_transfers ts 0 (AnyLeg.timetable st o d tr :: rest)
    simpa [getDepartureTime, getDepartureTimeGo] using this
  · intro front st o d tr ts
    have hrev : (front ++ AnyLeg.timetable st o d tr :: ts.map AnyLeg.transfer).reverse
        = ts.reverse.map AnyLeg.transfer ++ AnyLeg.timetable st o d tr :: front.reverse := by
      simp [List.reverse_append, List.map_reverse]
    have := getArrivalTimeGo_transfers ts.reverse 0
      (AnyLeg.timetable st o d tr :: front.reverse)
    rw [getArrivalTime, hrev, this]
    simp [getArrivalTimeGo, List.sum_reverse]

/-- query/GroupStationArriveByQuery.ts `mergeJourneys`: concatenates the
legs of journey A before those of journey B, keeps A's departure time, and
sets the arrival time to B's arrival time minus one day. -/
def mergeJourneys (journeyA journeyB : Journey) : Journey :=
  { legs := journeyA.legs ++ journeyB.legs
    departureTime := journeyA.departureTime
    arrivalTime := journeyB.arrivalTime - 86400 }

/-- The configured inter-day shift (spec constant `dayRolloverOffset`). -/
def dayRolloverOffset : Int := 86400

/-- C1 (amended): the merged journey keeps journey A's departure time,
concatenates A's legs before B's legs, and its arrival time is journey B's
arrival time MINUS the day rollover offset (the same sign as the
depart-after stitch), not plus it. -/
theorem mergeJourneys_shift (journeyA journeyB : Journey) :
    (mergeJourneys journeyA journeyB).legs = journeyA.legs ++ journeyB.legs ∧
    (mergeJourneys journeyA journeyB).departureTime = journeyA.departureTime ∧
    (mergeJourneys journeyA journeyB).arrivalTime
      = journeyB.arrivalTime - dayRolloverOffset :=
  ⟨rfl, rfl, rfl⟩

/-- Concrete journeys for the C1 counterexample. -/
def cjA : Journey := ⟨[], 100, 200⟩

/-- Second concrete journey for the C1 counterexample. -/
def cjB : Journey := ⟨[], 300, 1000⟩

/-- C1 counterexample: at concrete journeys the merged arrival time is
`journeyB.arrivalTime - 86400`, which is neither the `+86400` shift the
claim asserts for the arrive-by direction nor the unshifted value. -/
theorem mergeJourneys_counterexample :
    (mergeJourneys cjA cjB).departureTime = cjA.departureTime ∧
    (mergeJourneys cjA cjB).arrivalTime = -85400 ∧
    (mergeJourneys cjA cjB).arrivalTime ≠ cjB.arrivalTime + 86400 ∧
    (mergeJourneys cjA cjB).arrivalTime ≠ cjB.arrivalTime := by
  refine ⟨by decide, by decide, by decide, by decide⟩

/-- Best arrivals as handed to the query layer
(raptor/ScanResults.ts `Arrivals`). -/
abbrev Arrivals := StopID → Option Time

/-- Origin / destination time map (raptor/RaptorAlgorithm.ts `StopTimes`). -/
abbrev StopTimesMap := StopID → Option Time

/-- Connection index as handed to the query layer
(raptor/ScanResults.ts `ConnectionIndex`): an object keyed by stop, each
stop holding a numeric-keyed record of per-round connections. Modelled as
an association list so that `Object.keys` (which drives the multi-day
stitching) is meaningful. -/
abbrev ConnectionIndex := List (StopID × List (Nat × ConnEntry))

/-- Lookup `kConnections[d]` with the empty record as default: looks a stop up in the connection index,
defaulting to the empty record. The only bare `kConnections[d]` accesses in
the sources are guarded by the scanner having initialised every prepared
stop, so the default also stands in for that initialisation. -/
def ciGet (ci : ConnectionIndex) (s : StopID) : List (Nat × ConnEntry) :=
  ((ci.find? (fun p => p.1 == s)).map Prod.snd).getD []

/-- Loop of results/JourneyFactory.ts `getJourneyLegs`: walk rounds
`i = k .. 1` backwards from the final destination, collecting legs. The
walking variable is `Option`-valued because a timetable leg sets it to the
undefined `stop` property; `none` as a result means the JavaScript loop
would have thrown. The collected legs are reversed at the end as in the
source. -/
def getJourneyLegsGo (ci : ConnectionIndex) :
    Nat → Option StopID → List AnyLeg → Option (List AnyLeg)
  | 0, _, legs => some legs.reverse
  | i + 1, destination, legs =>
    match destination with
    | none => none
    | some d =>
      match recordGet (ciGet ci d) (i + 1) with
      | none => none
      | some (.transfer t) =>
        getJourneyLegsGo ci i (some t.origin) (legs ++ [.transfer t])
      | some (.trip trip start endIndex) =>
        let stopTimes := (trip.stopTimes.drop start).take (endIndex + 1 - start)
        let origin := jsStopField (stopTimes.headD defaultStopTime)
        getJourneyLegsGo ci i origin (legs ++ [.timetable stopTimes origin (some d) trip])

/-- results/JourneyFactory.ts `getJourneyLegs`. -/
def getJourneyLegs (ci : ConnectionIndex) (k : Nat) (finalDestination : StopID) :
    Option (List AnyLeg) :=
  getJourneyLegsGo ci k (some finalDestination) []

/-- Loop of results/JourneyFactory.ts `getReverseJourneyLegs`: same walk
but reading `stopTimes.slice(end, start + 1)`, pushing legs in forward
order (no final reverse), and advancing the origin variable through the
undefined `stop` property of the slice's last element. -/
def getReverseJourneyLegsGo (ci : ConnectionIndex) :
    Nat → Option StopID → List AnyLeg → Option (List AnyLeg)
  | 0, _, legs => some legs
  | i + 1, originVar, legs =>
    match originVar with
    | none => none
    | some o =>
      match recordGet (ciGet ci o) (i + 1) with
      | none => none
      | some (.transfer t) =>
        getReverseJourneyLegsGo ci i (some t.origin) (legs ++ [.transfer t])
      | some (.trip trip start endIndex) =>
        let stopTimes := (trip.stopTimes.drop endIndex).take (start + 1 - endIndex)
        let destination := jsStopField (stopTimes.getLastD defaultStopTime)
        getReverseJourneyLegsGo ci i destination
          (legs ++ [.timetable stopTimes destination (some o) trip])

/-- Build the `Journey` record from a leg list as results/JourneyFactory.ts
does in `getResults` / `getReverseResults`. -/
def mkJourney (legs : List AnyLeg) : Journey :=
  { legs := legs, departureTime := getDepartureTime legs, arrivalTime := getArrivalTime legs }

/-- results/JourneyFactory.ts `getReverseResults`: one journey per round
recorded for the origin (rounds enumerate in ascending numeric key order),
propagating a thrown walk as `none`. -/
def getReverseResults (ci : ConnectionIndex) (origin : StopID) : Option (List Journey) :=
  (ciGet ci origin).mapM
    (fun p => (getReverseJourneyLegsGo ci p.1 (some origin) []).map mkJourney)

/-- The `origin` property of a leg as JavaScript reads it
(`journeyB.legs[0].origin`). -/
def legOrigin : AnyLeg → Option StopID
  | .timetable _ o _ _ => o
  | .transfer t => some t.origin

/-- Variant of `getReverseResults` as called with a possibly-undefined origin: an
undefined key indexes nothing, the `|| ` default produces the empty
record, hence no journeys. -/
def getReverseResultsAt (ci : ConnectionIndex) (origin : Option StopID) :
    Option (List Journey) :=
  match origin with
  | none => some []
  | some o => getReverseResults ci o

/-- query/GroupStationArriveByQuery.ts `completeJourneys`: prepend, to each
journey found so far, every journey of the given connection index that
leads to its first leg's origin; `none` models the TypeError thrown when a
journey has no legs. -/
def completeJourneys (results : List Journey) (kConnections : ConnectionIndex) :
    Option (List Journey) :=
  (results.mapM (fun (journeyB : Journey) =>
    match journeyB.legs.head? with
    | none => (none : Option (List Journey))
    | some leg =>
      (getReverseResultsAt kConnections (legOrigin leg)).map
        (fun (js : List Journey) =>
          js.map (fun journeyA => mergeJourneys journeyA journeyB)))).map
    List.flatten

/-- query/GroupStationArriveByQuery.ts `getJourneysFromConnections`:
journeys of the current day for every origin holding a connection, then
each previously scanned day's connections prepended in reverse scan
order. -/
def getJourneysFromConnections (kConnections : ConnectionIndex)
    (prevConnections : List ConnectionIndex) (origins : List StopID) :
    Option (List Journey) :=
  let originsWithResults := origins.filter (fun d => !(ciGet kConnections d).isEmpty)
  ((originsWithResults.mapM (fun d => getReverseResults kConnections d)).map
      List.flatten).bind
    (fun initialResults => (prevConnections.reverse).foldlM completeJourneys initialResults)

/-- query/GroupStationArriveByQuery.ts `getFoundStations`: every stop that
obtained at least one connection becomes a destination for the previous
day, with arrival time `bestArrivals[stop] + 86400`. -/
def getFoundStations (kConnections : ConnectionIndex) (bestArrivals : Arrivals) :
    StopTimesMap :=
  fun s =>
    if !(ciGet kConnections s).isEmpty then (bestArrivals s).map (fun t => t + 86400)
    else none

/-- The `maxSearchDays` default of the `GroupStationArriveByQuery`
constructor. -/
def defaultMaxSearchDays : Nat := 3

/-- Loop of query/GroupStationArriveByQuery.ts `getJourneys`, with the
missing scanner (`raptor.scanArriveBy`) abstracted as the function
`raptor`; the source derives the scanner's `date` and `dayOfWeek`
arguments from the running start date, which is represented here as an
absolute timestamp in seconds, decremented by one day per iteration
(`startDate.setDate(startDate.getDate() - 1)`). The fuel is the remaining
number of search days. `none` models an exception escaping the loop. -/
def getJourneysAux (raptor : StopTimesMap → Int → ConnectionIndex × Arrivals)
    (origins : List StopID) :
    Nat → StopTimesMap → Int → List ConnectionIndex → Option (List Journey)
  | 0, _, _, _ => some []
  | fuel + 1, destinations, startDate, connectionIndexes =>
    let scanned := raptor destinations startDate
    match getJourneysFromConnections scanned.1 connectionIndexes origins with
    | none => none
    | some results =>
      if results.isEmpty then
        getJourneysAux raptor origins fuel (getFoundStations scanned.1 scanned.2)
          (startDate - 86400) (connectionIndexes ++ [scanned.1])
      else some results

/-- The (date, connection index) pairs of the scans actually performed by
`getJourneysAux`, in order. -/
def scanTrace (raptor : StopTimesMap → Int → ConnectionIndex × Arrivals)
    (origins : List StopID) :
    Nat → StopTimesMap → Int → List ConnectionIndex → List (Int × ConnectionIndex)
  | 0, _, _, _ => []
  | fuel + 1, destinations, startDate, connectionIndexes =>
    let scanned := raptor destinations startDate
    (startDate, scanned.1) ::
      (match getJourneysFromConnections scanned.1 connectionIndexes origins with
       | none => []
       | some results =>
         if results.isEmpty then
           scanTrace raptor origins fuel (getFoundStations scanned.1 scanned.2)
             (startDate - 86400) (connectionIndexes ++ [scanned.1])
         else [])

/-- Connection index used to exhibit the `stop` / `stopId` mismatch: stop
B was reached in round 1 by riding `tripW` from index 0 to index 1. -/
def ci5 : ConnectionIndex := [("B", [(1, .trip tripW 0 1)])]

/-- C5 (code bug): reconstructing the leg for the connection
`(tripW, 0, 1)` yields the inclusive stop-time slice and the recorded
destination, but the leg origin is `undefined` (the factory reads the
nonexistent `stop` property) instead of `stopTimes[boardIndex].stopId`
("A") as the claim and the rest of the codebase require. -/
theorem journeyLegs_stop_field_bug :
    getJourneyLegs ci5 1 "B"
      = some [AnyLeg.timetable [stW1, stW2] none (some "B") tripW] ∧
    getJourneyLegs ci5 1 "B"
      ≠ some [AnyLeg.timetable [stW1, stW2] (some stW1.stopId) (some "B") tripW] ∧
    stW1.stopId = "A" ∧ stW2.stopId = "B" := by
  have h1 : getJourneyLegs ci5 1 "B"
      = some [AnyLeg.timetable [stW1, stW2] none (some "B") tripW] := rfl
  refine ⟨h1, ?_, rfl, rfl⟩
  rw [h1]
  simp [stW1]

/-- Prepending onto an empty journey list yields the empty list. -/
theorem completeJourneys_nil (c : ConnectionIndex) : completeJourneys [] c = some [] := rfl

/-- Folding `completeJourneys` from the empty journey list stays empty. -/
theorem foldlM_completeJourneys_nil (l : List ConnectionIndex) :
    List.foldlM completeJourneys ([] : List Journey) l = some [] := by
  induction l with
  | nil => rfl
  | cons c cs ih => simpa [List.foldlM_cons, completeJourneys_nil] using ih

/-- If no origin holds a connection in the current index, the stitcher
produces no journeys (and throws nothing). -/
theorem getJourneysFromConnections_empty (kc : ConnectionIndex)
    (idxs : List ConnectionIndex) (origins : List StopID)
    (h : ∀ o ∈ origins, ciGet kc o = []) :
    getJourneysFromConnections kc idxs origins = some [] := by
  have hf : origins.filter (fun d => !(ciGet kc d).isEmpty) = [] := by
    refine List.filter_eq_nil_iff.mpr ?_
    intro a ha
    simp [h a ha]
  simp only [getJourneysFromConnections]
  rw [hf]
  have h0 : ((List.mapM (fun d => getReverseResults kc d) ([] : List StopID)).map
      List.flatten) = some [] := rfl
  rw [h0]
  exact foldlM_completeJourneys_nil idxs.reverse

/-- The scan loop performs at most `fuel` scans. -/
theorem scanTrace_length_le (raptor : StopTimesMap → Int → ConnectionIndex × Arrivals)
    (origins : List StopID) :
    ∀ (n : Nat) (destinations : StopTimesMap) (startDate : Int)
      (connectionIndexes : List ConnectionIndex),
      (scanTrace raptor origins n destinations startDate connectionIndexes).length ≤ n := by
  intro n
  induction n with
  | zero => intro _ _ _; simp [scanTrace]
  | succ fuel ih =>
    intro destinations startDate connectionIndexes
    simp only [scanTrace, List.length_cons]
    split
    · simp
    · split
      · exact Nat.succ_le_succ (ih _ _ _)
      · simp

/-- Each performed scan is dated exactly one day (86 400 s) earlier than
the previous one, starting from the reference date. -/
theorem scanTrace_dates (raptor : StopTimesMap → Int → ConnectionIndex × Arrivals)
    (origins : List StopID) :
    ∀ (n : Nat) (destinations : StopTimesMap) (startDate : Int)
      (connectionIndexes : List ConnectionIndex),
      (scanTrace raptor origins n destinations startDate connectionIndexes).map Prod.fst
        = (List.range
            (scanTrace raptor origins n destinations startDate connectionIndexes).length).map
            (fun i : Nat => startDate - 86400 * (i : Int)) := by
  intro n
  induction n with
  | zero => intro _ _ _; simp [scanTrace]
  | succ fuel ih =>
    intro destinations startDate connectionIndexes
    simp only [scanTrace]
    split
    · simp [List.range_succ]
    · split
      · simp only [List.map_cons, List.length_cons, List.range_succ_eq_map,
          List.map_map]
        simp only [List.cons.injEq]
        constructor
        · simp
        · rw [ih]
          refine List.map_congr_left ?_
          intro i _
          simp only [Function.comp_apply]
          push_cast
          ring
      · simp [List.range_succ]

/-- If no origin obtains a connection on any scanned day, the loop runs to
exhaustion and returns the empty journey list. -/
theorem getJourneysAux_empty (raptor : StopTimesMap → Int → ConnectionIndex × Arrivals)
    (origins : List StopID) :
    ∀ (n : Nat) (destinations : StopTimesMap) (startDate : Int)
      (connectionIndexes : List ConnectionIndex),
      (∀ p ∈ scanTrace raptor origins n destinations startDate connectionIndexes,
        ∀ o ∈ origins, ciGet p.2 o = []) →
      getJourneysAux raptor origins n destinations startDate connectionIndexes = some [] := by
  intro n
  induction n with
  | zero => intro _ _ _ _; rfl
  | succ fuel ih =>
    intro destinations startDate connectionIndexes h
    have hhead : ∀ o ∈ origins, ciGet (raptor destinations startDate).1 o = [] := by
      have hm : (startDate, (raptor destinations startDate).1)
          ∈ scanTrace raptor origins (fuel + 1) destinations startDate connectionIndexes := by
        simp [scanTrace]
      exact h _ hm
    have hempty := getJourneysFromConnections_empty (raptor destinations startDate).1
      connectionIndexes origins hhead
    have htail : scanTrace raptor origins (fuel + 1) destinations startDate connectionIndexes
        = (startDate, (raptor destinations startDate).1) ::
          scanTrace raptor origins fuel
            (getFoundStations (raptor destinations startDate).1 (raptor destinations startDate).2)
            (startDate - 86400) (connectionIndexes ++ [(raptor destinations startDate).1]) := by
      simp [scanTrace, hempty]
    have hstep : getJourneysAux raptor origins (fuel + 1) destinations startDate connectionIndexes
        = getJourneysAux raptor origins fuel
            (getFoundStations (raptor destinations startDate).1 (raptor destinations startDate).2)
            (startDate - 86400) (connectionIndexes ++ [(raptor destinations startDate).1]) := by
      simp [getJourneysAux, hempty]
    rw [hstep]
    apply ih
    intro p hp o ho
    refine h p ?_ o ho
    rw [htail]
    exact List.mem_cons_of_mem _ hp

/-- C8: the arrive-by multi-day search performs at most `maxSearchDays`
scans (the constructor default being 3), each scan dated one day earlier
than the previous, and when no origin stop obtains a recorded connection
on any scanned day it returns the empty journey list instead of an
error. -/
theorem arriveBy_getJourneys_spec (raptor : StopTimesMap → Int → ConnectionIndex × Arrivals)
    (origins : List StopID) (n : Nat) (destinations : StopTimesMap) (startDate : Int)
    (connectionIndexes : List ConnectionIndex) :
    defaultMaxSearchDays = 3 ∧
    (scanTrace raptor origins n destinations startDate connectionIndexes).length ≤ n ∧
    ((scanTrace raptor origins n destinations startDate connectionIndexes).map Prod.fst
      = (List.range
          (scanTrace raptor origins n destinations startDate connectionIndexes).length).map
          (fun i : Nat => startDate - 86400 * (i : Int))) ∧
    ((∀ p ∈ scanTrace raptor origins n destinations startDate connectionIndexes,
        ∀ o ∈ origins, ciGet p.2 o = []) →
      getJourneysAux raptor origins n destinations startDate connectionIndexes = some []) :=
  ⟨rfl, scanTrace_length_le raptor origins n destinations startDate connectionIndexes,
    scanTrace_dates raptor origins n destinations startDate connectionIndexes,
    fun h => getJourneysAux_empty raptor origins n destinations startDate connectionIndexes h⟩

/-- A scanner stub that records nothing, for the C8 witness. -/
def raptorW : StopTimesMap → Int → ConnectionIndex × Arrivals :=
  fun _ _ => ([], fun _ => none)

/-- Witness for C8: with a scanner that never records a connection, a
one-day search from timestamp 0 satisfies the no-connection hypothesis and
returns the empty journey list. -/
theorem arriveBy_getJourneys_witness :
    (∀ p ∈ scanTrace raptorW ["O"] 1 (fun _ => none) 0 [], ∀ o ∈ ["O"], ciGet p.2 o = []) ∧
    getJourneysAux raptorW ["O"] 1 (fun _ => none) 0 [] = some [] := by
  have htr : scanTrace raptorW ["O"] 1 (fun _ => none) 0 [] = [(0, [])] := rfl
  have h : ∀ p ∈ scanTrace raptorW ["O"] 1 (fun _ => none) 0 [], ∀ o ∈ ["O"], ciGet p.2 o = [] := by
    intro p hp o ho
    rw [htr] at hp
    simp only [List.mem_singleton] at hp
    subst hp
    rfl
  exact ⟨h, (arriveBy_getJourneys_spec raptorW ["O"] 1 (fun _ => none) 0 []).2.2.2 h⟩

/-- Small helper: an element produced by `getLast?` is a member. -/
theorem mem_of_getLastEq {α : Type} {l : List α} {a : α} (h : l.getLast? = some a) : a ∈ l := by
  obtain ⟨hh, rfl⟩ := List.mem_getLast?_eq_getLast (l := l) (x := a) (by simp [h])
  exact List.getLast_mem hh

/-- Decimal digit test on a character code. -/
def isDigitChar (c : Char) : Bool :=
  decide (48 ≤ c.toNat) && decide (c.toNat ≤ 57)

/-- JavaScript `Number(s)` restricted to the nonnegative-integer id strings
this feed uses (`route_id`, `direction_id`, `trip_id`, numeric stop ids):
`none` plays the role of `NaN`, which compares unequal to everything. -/
def jsNumber (s : String) : Option Int :=
  if s.data ≠ [] ∧ s.data.all isDigitChar then
    some ((s.data.foldl (fun acc c => acc * 10 + (c.toNat - 48)) 0 : Nat) : Int)
  else none

/-- Strict JavaScript equality between a possibly-NaN number and an
integer. -/
def numEq (o : Option Int) (n : Int) : Bool :=
  match o with
  | some v => v == n
  | none => false

/-- JavaScript `date.getDay()` for a timestamp in seconds since the Unix epoch
(1970-01-01 was a Thursday, day 4; single-timezone model). -/
def jsGetDay (d : Int) : Int :=
  (d.fdiv 86400 + 4).emod 7

/-- utils/FormatUtils.ts `timeToDate`: `new Date(Y, M, D, hours, minutes,
seconds)` built from the base date's civil day and the decomposition
`hours = floor(time/3600)`, `minutes = floor(time/60) % 60`,
`seconds = time % 60`, i.e. the base day's midnight plus those components
(`Math.floor` is `fdiv`; `%` agrees with `emod` on the nonnegative times
of the feed). -/
def timeToDate (time : Int) (base : Int) : Int :=
  (base.fdiv 86400) * 86400 + (time.fdiv 3600) * 3600 +
    ((time.fdiv 60).emod 60) * 60 + time.emod 60

/-- Modelled from the spec: `query/DateUtil.getDateNumber` is not among
the provided sources; the spec states "Dates. Represented as compact
integers YYYYMMDD". Converts a timestamp (seconds since the Unix epoch)
to the compact YYYYMMDD number of its civil day, proleptic Gregorian. -/
def getDateNumber (d : Int) : Int :=
  let z : Int := d.fdiv 86400 + 719468
  let era : Int := z.fdiv 146097
  let doe : Nat := (z - era * 146097).toNat
  let yoe : Nat := (doe - doe / 1460 + doe / 36524 - doe / 146096) / 365
  let y : Int := (yoe : Int) + era * 400
  let doy : Nat := doe - (365 * yoe + yoe / 4 - yoe / 100)
  let mp : Nat := (5 * doy + 2) / 153
  let dd : Nat := doy - (153 * mp + 2) / 5 + 1
  let m : Int := (mp : Int) + (if mp < 10 then 3 else (-9))
  let yy : Int := y + (if m ≤ 2 then 1 else 0)
  yy * 10000 + m * 100 + (dd : Int)

/-- Index accumulator for `Array.prototype.indexOf`. -/
def jsIndexOfGo (a : StopID) : List StopID → Int → Int
  | [], _ => -1
  | x :: xs, i => if x = a then i else jsIndexOfGo a xs (i + 1)

/-- JavaScript `sequence.indexOf(a)`: first occurrence or -1. -/
def jsIndexOf (l : List StopID) (a : StopID) : Int :=
  jsIndexOfGo a l 0

/-- JavaScript `sequence.lastIndexOf(a)`: last occurrence or -1. -/
def jsLastIndexOf (l : List StopID) (a : StopID) : Int :=
  let r := jsIndexOf l.reverse a
  if r = -1 then -1 else (l.length : Int) - 1 - r

/-- results/DelayUtils.ts `isSubsequence`: only checks the length, the
presence of the first and last elements, and that the first occurrence of
the first element precedes the last occurrence of the last element.
Intermediate elements are not inspected. An empty subsequence reads
`undefined` endpoints, whose `indexOf` is -1. -/
def isSubsequence (subsequence sequence : List StopID) : Bool :=
  if sequence.length < subsequence.length then false
  else
    let firstIndex :=
      match subsequence.head? with
      | some first => jsIndexOf sequence first
      | none => -1
    let lastIndex :=
      match subsequence.getLast? with
      | some last => jsLastIndexOf sequence last
      | none => -1
    firstIndex != -1 && lastIndex != -1 && decide (firstIndex < lastIndex)

/-- Index accumulator for `Array.prototype.findIndex` over stop ids. -/
def findIndexStopGo (idTok : StopID) : List StopTime → Int → Int
  | [], _ => -1
  | x :: xs, i => if x.stopId = idTok then i else findIndexStopGo idTok xs (i + 1)

/-- JavaScript `sequence.findIndex(item => item.stopId === tok)`. -/
def findIndexStop (sequence : List StopTime) (idTok : StopID) : Int :=
  findIndexStopGo idTok sequence 0

/-- results/DelayUtils.ts `getSubSequence`: slice between the first
occurrences of the subsequence's first and last stop ids; `none` models
the thrown "Invalid subsequence" error. -/
def getSubSequence (subsequence : List StopID) (sequence : List StopTime) :
    Option (List StopTime) :=
  if subsequence.isEmpty then some []
  else
    let startIndex := findIndexStop sequence (subsequence.headD "")
    let endIndex := findIndexStop sequence (subsequence.getLastD "")
    if startIndex = -1 ∨ endIndex = -1 ∨ startIndex > endIndex then none
    else some ((sequence.drop startIndex.toNat).take (endIndex.toNat + 1 - startIndex.toNat))

/-- results/DelayUtils.ts `MatchingTrip` (ids through `Number(...)`). -/
structure MatchingTrip where
  tripId : Option Int
  terminusId : Option Int
  subSequence : List StopTime
deriving DecidableEq, Repr

/-- Stable ascending insertion by scan date: an element goes after every
earlier-or-equal key, modelling the stable `Array.prototype.sort` with the
`getTime` difference comparator. -/
def sortInsert (a : Int × MatchingTrip) :
    List (Int × MatchingTrip) → List (Int × MatchingTrip)
  | [] => [a]
  | b :: rest => if b.1 ≤ a.1 then b :: sortInsert a rest else a :: b :: rest

/-- Stable sort of the matching-trip map entries by date. -/
def sortByTime : List (Int × MatchingTrip) → List (Int × MatchingTrip)
  | [] => []
  | a :: rest => sortInsert a (sortByTime rest)

/-- Candidate-collecting loop of results/DelayUtils.ts `findMatchingTrip`.
The four sequential `continue` guards (route, direction, calendar,
subsequence) are gathered into one disjunction since they all skip to the
next trip; a `getSubSequence` throw aborts the whole call (`none`); Map
entries keyed by distinct `Date` objects never collide, so the map is the
insertion-ordered list of (tripDate, MatchingTrip) pairs. -/
def findMatchingTripGo (stopSequence : List StopID) (ligneId directionId : Int)
    (date : Int) (partir : Bool) : List Trip → Option (List (Int × MatchingTrip))
  | [] => some []
  | trip :: rest =>
    if ¬ numEq (jsNumber trip.routeId) ligneId ∨
        ¬ numEq (jsNumber trip.directionId) directionId ∨
        ¬ trip.service.runsOn (getDateNumber date) (jsGetDay date) ∨
        ¬ isSubsequence stopSequence (trip.stopTimes.map (fun st => st.stopId)) then
      findMatchingTripGo stopSequence ligneId directionId date partir rest
    else
      match getSubSequence stopSequence trip.stopTimes with
      | none => none
      | some subsequence =>
        let tripDate :=
          if partir then timeToDate (subsequence.headD defaultStopTime).departureTime date
          else timeToDate (subsequence.getLastD defaultStopTime).departureTime date
        if (partir ∧ tripDate < date) ∨ (¬ partir ∧ tripDate > date) then
          findMatchingTripGo stopSequence ligneId directionId date partir rest
        else
          (findMatchingTripGo stopSequence ligneId directionId date partir rest).map
            (fun l => (tripDate,
              { tripId := jsNumber trip.id
                terminusId := jsNumber (trip.stopTimes.getLastD defaultStopTime).stopId
                subSequence := subsequence }) :: l)

/-- results/DelayUtils.ts `findMatchingTrip`: sort candidates by date and
return the earliest (`partir`) or latest one; inner `none` is the source's
`null`, outer `none` a thrown error. -/
def findMatchingTrip (stopSequence : List StopID) (trips : List Trip)
    (ligneId directionId : Int) (date : Int) (partir : Bool) :
    Option (Option MatchingTrip) :=
  (findMatchingTripGo stopSequence ligneId directionId date partir trips).map
    (fun cands =>
      let sortedTrips := sortByTime cands
      if partir then (sortedTrips.head?).map Prod.snd
      else (sortedTrips.getLast?).map Prod.snd)

/-- Membership through stable insertion. -/
theorem mem_sortInsert (a x : Int × MatchingTrip) (l : List (Int × MatchingTrip)) :
    x ∈ sortInsert a l ↔ x = a ∨ x ∈ l := by
  induction l with
  | nil => simp [sortInsert]
  | cons b rest ih =>
    simp only [sortInsert]
    split
    · rw [List.mem_cons, ih, List.mem_cons]
      tauto
    · exact List.mem_cons

/-- Sorting the candidate list preserves membership. -/
theorem mem_sortByTime (x : Int × MatchingTrip) (l : List (Int × MatchingTrip)) :
    x ∈ sortByTime l ↔ x ∈ l := by
  induction l with
  | nil => simp [sortByTime]
  | cons a rest ih =>
    simp [sortByTime, mem_sortInsert, ih]

/-- Every collected candidate comes from a trip of the input list that
passed the `isSubsequence` guard. -/
theorem findMatchingTripGo_mem (stopSequence : List StopID) (ligneId directionId : Int)
    (date : Int) (partir : Bool) :
    ∀ (trips : List Trip) (cands : List (Int × MatchingTrip)),
      findMatchingTripGo stopSequence ligneId directionId date partir trips = some cands →
      ∀ p ∈ cands, ∃ t ∈ trips,
        isSubsequence stopSequence (t.stopTimes.map (fun st => st.stopId)) = true ∧
        p.2.tripId = jsNumber t.id := by
  intro trips
  induction trips with
  | nil =>
    intro cands h p hp
    simp only [findMatchingTripGo] at h
    injection h with h
    subst h
    simp at hp
  | cons trip rest ih =>
    intro cands h p hp
    simp only [findMatchingTripGo] at h
    by_cases hskip : (¬ numEq (jsNumber trip.routeId) ligneId ∨
        ¬ numEq (jsNumber trip.directionId) directionId ∨
        ¬ trip.service.runsOn (getDateNumber date) (jsGetDay date) ∨
        ¬ isSubsequence stopSequence (trip.stopTimes.map (fun st => st.stopId)))
    · rw [if_pos hskip] at h
      obtain ⟨t, ht, hsub, hid⟩ := ih cands h p hp
      exact ⟨t, List.mem_cons_of_mem _ ht, hsub, hid⟩
    · rw [if_neg hskip] at h
      push_neg at hskip
      obtain ⟨h1, h2, h3, h4⟩ := hskip
      cases hsubseq : getSubSequence stopSequence trip.stopTimes with
      | none =>
        simp only [hsubseq] at h
        exact absurd h (by simp)
      | some subsequence =>
        simp only [hsubseq] at h
        cases hpartir : partir with
        | true =>
          subst hpartir
          simp only [Bool.true_eq_false, not_true, false_and, and_true, true_and, or_false,
            false_or, if_true, eq_self_iff_true, not_false_iff, ite_true] at h
          by_cases htime :
              timeToDate (subsequence.headD defaultStopTime).departureTime date < date
          · rw [if_pos htime] at h
            obtain ⟨t, ht, hsub, hid⟩ := ih cands h p hp
            exact ⟨t, List.mem_cons_of_mem _ ht, hsub, hid⟩
          · rw [if_neg htime] at h
            cases hgo : findMatchingTripGo stopSequence ligneId directionId date true rest with
            | none => rw [hgo] at h; exact absurd h (by simp)
            | some l =>
              rw [hgo] at h
              simp only [Option.map_some', Option.some.injEq] at h
              subst h
              rcases List.mem_cons.mp hp with hph | hpl
              · subst hph
                refine ⟨trip, List.mem_cons_self _ _, ?_, rfl⟩
                simpa using h4
              · obtain ⟨t, ht, hsub, hid⟩ := ih l hgo p hpl
                exact ⟨t, List.mem_cons_of_mem _ ht, hsub, hid⟩
        | false =>
          subst hpartir
          simp only [Bool.false_eq_true, not_false_iff, false_and, true_and, and_true,
            false_or, or_false, if_false, ite_false] at h
          by_cases htime :
              timeToDate (subsequence.getLastD defaultStopTime).departureTime date > date
          · rw [if_pos htime] at h
            obtain ⟨t, ht, hsub, hid⟩ := ih cands h p hp
            exact ⟨t, List.mem_cons_of_mem _ ht, hsub, hid⟩
          · rw [if_neg htime] at h
            cases hgo : findMatchingTripGo stopSequence ligneId directionId date false rest with
            | none => rw [hgo] at h; exact absurd h (by simp)
            | some l =>
              rw [hgo] at h
              simp only [Option.map_some', Option.some.injEq] at h
              subst h
              rcases List.mem_cons.mp hp with hph | hpl
              · subst hph
                refine ⟨trip, List.mem_cons_self _ _, ?_, rfl⟩
                simpa using h4
              · obtain ⟨t, ht, hsub, hid⟩ := ih l hgo p hpl
                exact ⟨t, List.mem_cons_of_mem _ ht, hsub, hid⟩

/-- C7 (amended): every trip selected by the re-matcher passed the
`isSubsequence` endpoint check against the leg's stop sequence (length,
presence of first and last stops, first occurrence of the first before the
last occurrence of the last); the intermediate stops of the leg are not
required to appear in the trip. -/
theorem findMatchingTrip_checks (stopSequence : List StopID) (trips : List Trip)
    (ligneId directionId : Int) (date : Int) (partir : Bool) (m : MatchingTrip)
    (h : findMatchingTrip stopSequence trips ligneId directionId date partir
      = some (some m)) :
    ∃ t ∈ trips,
      isSubsequence stopSequence (t.stopTimes.map (fun st => st.stopId)) = true ∧
      m.tripId = jsNumber t.id := by
  cases hgo : findMatchingTripGo stopSequence ligneId directionId date partir trips with
  | none =>
    rw [findMatchingTrip, hgo] at h
    exact absurd h (by simp)
  | some cands =>
    rw [findMatchingTrip, hgo] at h
    simp only [Option.map_some', Option.some.injEq] at h
    by_cases hp : partir
    · rw [if_pos hp] at h
      cases hh : (sortByTime cands).head? with
      | none => rw [hh] at h; exact absurd h (by simp)
      | some pr =>
        rw [hh] at h
        simp only [Option.map_some', Option.some.injEq] at h
        have hmem : pr ∈ sortByTime cands := List.mem_of_mem_head? (by simp [hh])
        have hmem2 : pr ∈ cands := (mem_sortByTime pr cands).mp hmem
        obtain ⟨t, ht, hsub, hid⟩ :=
          findMatchingTripGo_mem stopSequence ligneId directionId date partir
            trips cands hgo pr hmem2
        exact ⟨t, ht, hsub, h ▸ hid⟩
    · rw [if_neg hp] at h
      cases hh : (sortByTime cands).getLast? with
      | none => rw [hh] at h; exact absurd h (by simp)
      | some pr =>
        rw [hh] at h
        simp only [Option.map_some', Option.some.injEq] at h
        have hmem : pr ∈ sortByTime cands := mem_of_getLastEq hh
        have hmem2 : pr ∈ cands := (mem_sortByTime pr cands).mp hmem
        obtain ⟨t, ht, hsub, hid⟩ :=
          findMatchingTripGo_mem stopSequence ligneId directionId date partir
            trips cands hgo pr hmem2
        exact ⟨t, ht, hsub, h ▸ hid⟩

/-- Stop times of the trip used to refute C7: stops "1", "2", "3". -/
def exTripStops : List StopTime :=
  [⟨"1", 100, 100, "7", 1, true, true, ""⟩,
   ⟨"2", 200, 200, "7", 2, true, true, ""⟩,
   ⟨"3", 300, 300, "7", 3, true, true, ""⟩]

/-- A service running every day of a wide window. -/
def exService : Service := ⟨0, 99999999, fun _ => true, fun _ => none⟩

/-- The trip used to refute C7 (route 2, direction 0). -/
def exTrip : Trip := ⟨"7", "2", "0", exTripStops, "SV1", exService⟩

/-- C7 counterexample: re-matching the leg sequence ["1", "9", "3"] at
epoch time 0 selects `exTrip`, whose stop sequence ["1", "2", "3"] does not
contain the leg's middle stop "9" — so the leg's stop sequence is not an
ordered subsequence of the selected trip's stops, contradicting the claim. -/
theorem findMatchingTrip_counterexample :
    findMatchingTrip ["1", "9", "3"] [exTrip] 2 0 0 true
      = some (some ⟨some 7, some 3, exTripStops⟩) ∧
    ¬ List.Sublist ["1", "9", "3"] (exTrip.stopTimes.map (fun st => st.stopId)) := by
  constructor
  · decide
  · intro hsl
    exact absurd (hsl.subset (by decide : "9" ∈ ["1", "9", "3"])) (by decide)

/-- Witness for the amended C7 at the concrete counterexample input. -/
theorem findMatchingTrip_checks_witness :
    findMatchingTrip ["1", "9", "3"] [exTrip] 2 0 0 true
      = some (some ⟨some 7, some 3, exTripStops⟩) ∧
    ∃ t ∈ [exTrip],
      isSubsequence ["1", "9", "3"] (t.stopTimes.map (fun st => st.stopId)) = true ∧
      (⟨some 7, some 3, exTripStops⟩ : MatchingTrip).tripId = jsNumber t.id :=
  ⟨by decide,
    findMatchingTrip_checks ["1", "9", "3"] [exTrip] 2 0 0 true
      ⟨some 7, some 3, exTripStops⟩ (by decide)⟩

/-- Example service used to witness the exclude-date branch of `runsOn`:
valid from date 10 to date 20, running every weekday, with an exclude
exception (include entry with value false) on date 15. -/
def exSvc : Service :=
  { startDate := 10, endDate := 20, days := fun _ => true
    dates := fun d => if d = 15 then some false else none }

/-- C6: `Service.runsOn date dow` is true iff the include-date index has a
true entry for `date`, or it has no entry at all and
`startDate ≤ date ≤ endDate` and the weekday mask is set for `dow`; in
particular a present include entry with value false (an exclude-date)
forces `runsOn` to return false regardless of the weekday rule. -/
theorem runsOn_iff (s : Service) (date dow : Int) :
    (s.runsOn date dow = true ↔
      s.dates date = some true ∨
        (s.dates date = none ∧ s.startDate ≤ date ∧ date ≤ s.endDate ∧ s.days dow = true)) ∧
    (s.dates date = some false → s.runsOn date dow = false) := by
  constructor
  · cases h : s.dates date with
    | none => simp [Service.runsOn, h, and_assoc]
    | some b => cases b <;> simp [Service.runsOn, h]
  · intro h
    simp [Service.runsOn, h]

/-- Witness for C6 at a concrete service and date: date 15 carries an
exclude entry, and `runsOn` returns false there even though the weekday
rule alone would allow it. -/
theorem runsOn_iff_witness :
    exSvc.dates 15 = some false ∧ exSvc.runsOn 15 1 = false :=
  ⟨by decide, (runsOn_iff exSvc 15 1).2 (by decide)⟩

end MT
